import Mathlib

/-
  Verification development for the Weekly Grocery Optimizer (src/app.py).

  The optimization engine of the app is shallowly embedded here:
  * the Requirement Resolver (the member-matching loop building
    `required_nutrients`, app.py lines 268-286),
  * the Catalog Joiner (the two `pd.merge` calls plus `fillna(0)`,
    app.py lines 289-291),
  * the Model Builder (decision variables `buy_qty`, the objective,
    the four nutrient constraints and the food-basket diversity
    constraints, app.py lines 294-354),
  * the Solver Adapter boundary (the solver is an external black box;
    its status string and variable values are inputs here),
  * the Result Extractor (the results-collection loop and the totals,
    app.py lines 362-386).

  Numeric columns of the pandas tables are modelled as rationals,
  python integers as naturals where the source guarantees nonnegative
  values.  PuLP affine expressions are dictionaries from variables to
  coefficients; they are modelled by term lists whose coefficients for
  one variable add up, exactly as repeated `+` on an LpAffineExpression
  does.  Constraints are stored with all variable terms and the constant
  on the left-hand side and 0 on the right, which is how PuLP normalises
  an inequality `e >= f` to `e - f >= 0`.
-/

namespace Grocery

/-! ## Household members and the requirement table -/

/-- Gender of a household member; the app's selectbox offers exactly
`"male"` and `"female"` (app.py line 174). -/
inductive Gender where
  | male
  | female
deriving DecidableEq

/-- The literal string stored in `st.session_state.household_members`
for a member's gender (always lowercase in the source). -/
def genderStr : Gender → String
  | .male => "male"
  | .female => "female"

/-- A household member (app.py lines 177-180). -/
structure Member where
  age : Nat
  gender : Gender
deriving DecidableEq

/-- One row of the `Check_Nutrition` sheet (`check_df`): an age/sex group
with inclusive age range and four daily minimums. -/
structure ReqRow where
  group : String
  minAge : Nat
  maxAge : Nat
  minCal : ℚ
  minProtein : ℚ
  minCarb : ℚ
  minFat : ℚ
deriving DecidableEq

/-- Aggregate daily requirement (the `required_nutrients` dict,
app.py lines 268-273). -/
structure Req where
  cal : ℚ
  protein : ℚ
  carb : ℚ
  fat : ℚ
deriving DecidableEq

/-- The zero requirement (initial value of the `required_nutrients` dict). -/
def zeroReq : Req := ⟨0, 0, 0, 0⟩

/-- Componentwise addition of requirement records (the four `+=` updates,
app.py lines 283-286). -/
def Req.addR (a b : Req) : Req :=
  ⟨a.cal + b.cal, a.protein + b.protein, a.carb + b.carb, a.fat + b.fat⟩

/-- Python's `str.lower()` restricted to per-character lowering, as used
on the `Age_Sex_Group` column (`.str.lower()`, app.py line 277). -/
def strLower (s : String) : String := ⟨s.data.map Char.toLower⟩

/-- The row filter of app.py lines 276-280: the row's `Age_Sex_Group`
lowercased equals the member's gender string, and the member's age lies in
the row's inclusive `[Min_Age, Max_Age]` range. -/
def rowMatches (m : Member) (r : ReqRow) : Bool :=
  (strLower r.group == genderStr m.gender)
    && decide (r.minAge ≤ m.age) && decide (m.age ≤ r.maxAge)

/-- The contribution of one member: the four minimums of the first
matching row (`row.iloc[0]` via `.values[0]`), or zero when the filtered
frame is empty (`if not row.empty`, app.py line 282). -/
def memberReq (table : List ReqRow) (m : Member) : Req :=
  match table.find? (rowMatches m) with
  | some r => ⟨r.minCal, r.minProtein, r.minCarb, r.minFat⟩
  | none => zeroReq

/-- The member loop of app.py lines 275-286: fold the per-member
contributions into the aggregate daily requirement. -/
def requiredNutrients (table : List ReqRow) (members : List Member) : Req :=
  members.foldl (fun acc m => acc.addR (memberReq table m)) zeroReq

/-! ## The catalog tables and the Catalog Joiner -/

/-- One row of the `Cost_List` sheet (`cost_df`). -/
structure CostRow where
  food : String
  desc : String
  store : String
  price : ℚ
  lb : ℚ
deriving DecidableEq

/-- One row of the `Nutrition_List` sheet (`nutrition_df`). -/
structure NutRow where
  food : String
  kcal : ℚ
  protein : ℚ
  carbs : ℚ
  fat : ℚ
  basket : String
  maxQty : Nat
deriving DecidableEq

/-- One row of the stock table (`stock_df`). -/
structure StockRow where
  desc : String
  qty : ℚ
deriving DecidableEq

/-- One row of the joined `data` frame (app.py lines 289-291). -/
structure Row where
  food : String
  desc : String
  store : String
  basket : String
  price : ℚ
  lb : ℚ
  kcal : ℚ
  protein : ℚ
  carbs : ℚ
  fat : ℚ
  stock : ℚ
  maxQty : Nat
deriving DecidableEq

/-- The merge `pd.merge(cost_df, nutrition_df, on="Food")`: an inner join
keeping the left row order, each cost row paired with every nutrition row
whose `Food` matches (app.py line 289).  The stock column is attached
next. -/
def joinCostNut (cost : List CostRow) (nut : List NutRow) : List Row :=
  cost.foldr
    (fun c acc =>
      ((nut.filter fun n => n.food == c.food).map fun n =>
        { food := c.food, desc := c.desc, store := c.store, basket := n.basket,
          price := c.price, lb := c.lb, kcal := n.kcal, protein := n.protein,
          carbs := n.carbs, fat := n.fat, stock := 0, maxQty := n.maxQty }) ++ acc)
    []

/-- The merge
`pd.merge(data, stock_df, on="Package Description", how="left").fillna(0)`:
a left join on the package description, each row paired with every matching
stock row, and rows without a match keeping stock 0 (app.py line 290). -/
def joinStock (rows : List Row) (stock : List StockRow) : List Row :=
  rows.foldr
    (fun r acc =>
      (let ms := stock.filter fun s => s.desc == r.desc
       if ms.isEmpty then [r] else ms.map fun s => { r with stock := s.qty }) ++ acc)
    []

/-- The full Catalog Joiner (app.py lines 289-291). -/
def joinTables (cost : List CostRow) (nut : List NutRow) (stock : List StockRow) :
    List Row :=
  joinStock (joinCostNut cost nut) stock

/-! ## Linear expressions, constraints and the model -/

/-- The four nutrients of the constraint loop (app.py lines 312-315),
in the source's iteration order `Protein, Carbohydrate, Fat, Calorie`. -/
inductive Nutrient where
  | protein
  | carb
  | fat
  | cal
deriving DecidableEq

/-- The `required_nutrients` dict key for a nutrient (app.py lines 268-273). -/
def reqKey : Nutrient → String
  | .protein => "Min_Protein"
  | .carb => "Min_Carbohydrate"
  | .fat => "Min_Fat"
  | .cal => "Min_Calorie"

/-- The joined-data column for a nutrient (`Protein (g)`, `Carbs (g)`,
`Fat (g)`, `kcal`). -/
def nutrCol : Nutrient → Row → ℚ
  | .protein => Row.protein
  | .carb => Row.carbs
  | .fat => Row.fat
  | .cal => Row.kcal

/-- The field of the aggregate requirement for a nutrient. -/
def reqVal (req : Req) : Nutrient → ℚ
  | .protein => req.protein
  | .carb => req.carb
  | .fat => req.fat
  | .cal => req.cal

/-- The iteration order of the nutrient-constraint loop (app.py lines 312-315). -/
def nutrientOrder : List Nutrient := [.protein, .carb, .fat, .cal]

/-- Value of a term list at an assignment: PuLP's dictionary semantics of
an `LpAffineExpression`, where repeated terms for one variable add up. -/
def dotF (ts : List (String × ℚ)) (f : String → ℚ) : ℚ :=
  (ts.map fun t => t.2 * f t.1).sum

/-- The aggregated coefficient of one variable in a term list. -/
def coefOf (ts : List (String × ℚ)) (s : String) : ℚ :=
  ((ts.filter fun t => t.1 == s).map Prod.snd).sum

/-- Direction of a PuLP inequality constraint. -/
inductive Sense where
  | ge
  | le
deriving DecidableEq

/-- One model constraint, normalised with every variable term and the
constant on the left and 0 on the right: `model += (e >= f, name)` is
stored as `e - f ≥ 0`.  `buyTerms` are coefficients of the purchase
variables (keyed by package description), `catTerms` of the category
indicator variables (keyed by category). -/
structure Constr where
  name : String
  buyTerms : List (String × ℚ)
  catTerms : List (String × ℚ)
  const : ℚ
  sense : Sense
deriving DecidableEq

/-- Satisfaction of a constraint at an assignment of the purchase
variables (`buy`) and of the category indicators (`ind`). -/
def Constr.holds (c : Constr) (buy ind : String → ℚ) : Prop :=
  match c.sense with
  | .ge => 0 ≤ dotF c.buyTerms buy + dotF c.catTerms ind + c.const
  | .le => dotF c.buyTerms buy + dotF c.catTerms ind + c.const ≤ 0

/-- Whether a constraint involves the indicator of category `cat` with a
nonzero coefficient. -/
def mentionsCat (c : Constr) (cat : String) : Bool :=
  decide (coefOf c.catTerms cat ≠ 0)

/-- The constant stock contribution of the nutrient constraint
(the plain python `sum` at app.py lines 322-325): nutrient content times
`Quantity_in_Stock_lb`, summed over the joined rows. -/
def stockDot (data : List Row) (n : Nutrient) : ℚ :=
  (data.map fun r => nutrCol n r * r.stock).sum

/-- The nutrient constraint of app.py lines 316-328:
`lpSum(col_i * buy_i) + sum(col_i * stock_i) >= required * 7`,
named `f"{nutrient}_requirement"`. -/
def nutrientConstr (data : List Row) (req : Req) (n : Nutrient) : Constr :=
  { name := reqKey n ++ "_requirement"
    buyTerms := data.map fun r => (r.desc, nutrCol n r)
    catTerms := []
    const := stockDot data n - reqVal req n * 7
    sense := .ge }

/-- The four nutrient constraints, in source order. -/
def nutrientConstrs (data : List Row) (req : Req) : List Constr :=
  nutrientOrder.map (nutrientConstr data req)

/-- The hardcoded `basket_categories` list (app.py lines 332-338). -/
def basketCategories : List String :=
  ["Protein", "Grains & Carbohydrate Sources", "Vegetables", "Fruits",
   "Fats, Nuts & Seeds"]

/-- The category-presence constraint of app.py lines 346-352:
`lpSum(buy_i for i in cat_items) + lpSum(1 for i in cat_items if stock_i > 0)
 >= has_cat[cat]`, named `f"{cat}_presence"`. -/
def presenceConstr (data : List Row) (cat : String) : Constr :=
  { name := cat ++ "_presence"
    buyTerms := (data.filter fun r => r.basket == cat).map fun r => (r.desc, 1)
    catTerms := [(cat, -1)]
    const := (((data.filter fun r => r.basket == cat).filter
                 fun r => decide (0 < r.stock)).length : ℚ)
    sense := .ge }

/-- The unnamed `model += has_cat[cat] <= 1` constraint (app.py line 354);
PuLP auto-names such constraints, modelled by the empty name. -/
def ubConstr (cat : String) : Constr :=
  { name := ""
    buyTerms := []
    catTerms := [(cat, 1)]
    const := -1
    sense := .le }

/-- The body of the diversity loop for one category (app.py lines 343-354):
two constraints when the category has at least one joined row
(`len(cat_items) > 0`), nothing otherwise. -/
def diversityFor (data : List Row) (cat : String) : List Constr :=
  if 0 < (data.filter fun r => r.basket == cat).length then
    [presenceConstr data cat, ubConstr cat]
  else []

/-- All diversity constraints: the loop runs over the hardcoded
`basket_categories` only. -/
def diversityConstrs (data : List Row) : List Constr :=
  basketCategories.foldr (fun cat acc => diversityFor data cat ++ acc) []

/-- Insert-or-overwrite for a python dict modelled as a key/value list:
an existing key keeps its position and takes the new value, a new key is
appended.  This is the semantics of the `buy_qty` dict comprehension when
package descriptions repeat (the later row silently wins). -/
def upsert (acc : List (String × Nat)) (d : String) (m : Nat) :
    List (String × Nat) :=
  if acc.any fun p => p.1 == d then
    acc.map fun p => if p.1 == d then (d, m) else p
  else acc ++ [(d, m)]

/-- The variable bounds of the `buy_qty` dict (app.py lines 297-305):
one integer variable per distinct package description with lower bound 0
and upper bound that row's `Max_quantity`. -/
def buyBounds (data : List Row) : List (String × Nat) :=
  data.foldl (fun acc r => upsert acc r.desc r.maxQty) []

/-- The built MILP (app.py lines 294-354): objective terms, constraint
list, purchase variable bounds, and the category indicator variables
(`has_cat` is created Binary for every hardcoded category,
app.py lines 340-341). -/
structure Model where
  objTerms : List (String × ℚ)
  constraints : List Constr
  buyBounds : List (String × Nat)
  catVars : List String
deriving DecidableEq

/-- The Model Builder (app.py lines 294-354). -/
def buildModel (data : List Row) (req : Req) : Model :=
  { objTerms := data.map fun r => (r.desc, r.price)
    constraints := nutrientConstrs data req ++ diversityConstrs data
    buyBounds := buyBounds data
    catVars := basketCategories }

/-- Modelled from the spec for the refinement comparison of claim C4:
"the same model with those [diversity] constraints removed" — identical
objective and variable bounds, only the four nutrient constraints, and
no indicator variables. -/
def buildModelNoDiv (data : List Row) (req : Req) : Model :=
  { objTerms := data.map fun r => (r.desc, r.price)
    constraints := nutrientConstrs data req
    buyBounds := buyBounds data
    catVars := [] }

/-- The declared bounds of the purchase variables: each is an integer
between 0 and its `Max_quantity` (app.py lines 298-303). -/
def buyBoundsOK (M : Model) (buy : String → ℚ) : Prop :=
  ∀ p ∈ M.buyBounds, (∃ k : ℤ, buy p.1 = (k : ℚ)) ∧ 0 ≤ buy p.1 ∧ buy p.1 ≤ (p.2 : ℚ)

/-- The declared bounds of the category indicators: each is binary. -/
def catOK (M : Model) (ind : String → ℚ) : Prop :=
  ∀ c ∈ M.catVars, ind c = 0 ∨ ind c = 1

/-- Feasibility of an assignment for a built model: variable bounds plus
every constraint. -/
def feasible (M : Model) (buy ind : String → ℚ) : Prop :=
  buyBoundsOK M buy ∧ catOK M ind ∧ ∀ c ∈ M.constraints, c.holds buy ind

/-! ## The Result Extractor -/

/-- Python's `round` to an integer: round half to even (banker's
rounding), as used at app.py line 367. -/
def pyRound (q : ℚ) : ℤ :=
  if q - ⌊q⌋ < 1 / 2 then ⌊q⌋
  else if 1 / 2 < q - ⌊q⌋ then ⌊q⌋ + 1
  else if ⌊q⌋ % 2 = 0 then ⌊q⌋ else ⌊q⌋ + 1

/-- Python's `round(x, 2)`: round half to even at two decimal places
(app.py lines 378-379). -/
def round2 (q : ℚ) : ℚ := (pyRound (q * 100) : ℚ) / 100

/-- One row of the `results` list (app.py lines 371-380). -/
structure PlanRow where
  store : String
  food : String
  desc : String
  lbPerPkg : ℚ
  pricePerPkg : ℚ
  qty : ℤ
  totalWeight : ℚ
  weeklyCost : ℚ
deriving DecidableEq

/-- The result row built for package description `d` from its first
joined row `r` (`data.loc[...].iloc[0]`) and its solved value `q`
(app.py lines 367-380). -/
def mkPlanRow (r : Row) (d : String) (q : ℚ) : PlanRow :=
  { store := r.store, food := r.food, desc := d, lbPerPkg := r.lb,
    pricePerPkg := r.price, qty := pyRound q,
    totalWeight := round2 (r.lb * (pyRound q : ℚ)),
    weeklyCost := round2 (r.price * (pyRound q : ℚ)) }

/-- The iteration order `for food in buy_qty` (app.py line 364): the dict
keys are the distinct package descriptions in first-occurrence order. -/
def firstKeys (data : List Row) : List String :=
  data.foldl (fun acc r => if r.desc ∈ acc then acc else acc ++ [r.desc]) []

/-- The loop body for one package description `d` (app.py lines 365-380):
`None` and values not strictly greater than 0 are skipped
(`if qty and qty > 0`), otherwise the first joined row with that
description (`data.loc[...].iloc[0]`) supplies the result row. -/
def extractOne (data : List Row) (vals : String → Option ℚ) (d : String) :
    Option PlanRow :=
  (vals d).bind fun q =>
    if 0 < q then (data.find? fun r => r.desc == d).map fun r => mkPlanRow r d q
    else none

/-- The results-collection loop (app.py lines 363-380).  A package enters
the plan exactly when its solved value is present (not `None`, which is
falsy) and strictly greater than 0. -/
def extractRows (data : List Row) (vals : String → Option ℚ) : List PlanRow :=
  (firstKeys data).filterMap (extractOne data vals)

/-! ## Solve outcome handling -/

/-- Outcome of one generate-list request past the solve call
(app.py lines 357-465): a successful extraction with its three totals,
the non-Optimal error message branch (line 461), or a python exception
caught by the `except` handler (lines 463-465). -/
inductive EngineOutcome where
  | success (rows : List PlanRow) (totalCost : ℚ) (totalItems : ℤ) (totalWeight : ℚ)
  | nonOptimal (status : String)
  | failure (msg : String)
deriving DecidableEq

/-- The purchase plan carried by an outcome: only the success branch
holds any rows. -/
def EngineOutcome.plan : EngineOutcome → List PlanRow
  | .success rows _ _ _ => rows
  | .nonOptimal _ => []
  | .failure _ => []

/-- The post-solve stage (app.py lines 359-461).  On `"Optimal"` the
results are collected and `pd.DataFrame(results)` is aggregated: when the
results list is empty the DataFrame has no columns at all, so
`results_df["Weekly_Cost"]` (line 384) raises a `KeyError`, which the
surrounding `except` turns into the failure branch.  Any other status
only reports the status string. -/
def afterSolve (data : List Row) (status : String) (vals : String → Option ℚ) :
    EngineOutcome :=
  if status = "Optimal" then
    if (extractRows data vals).isEmpty then .failure "KeyError: Weekly_Cost"
    else
      .success (extractRows data vals)
        (((extractRows data vals).map PlanRow.weeklyCost).sum)
        (((extractRows data vals).map PlanRow.qty).sum)
        (((extractRows data vals).map PlanRow.totalWeight).sum)
  else .nonOptimal status

/-- Result of the Generate Shopping List tab (app.py lines 259-465). -/
inductive Tab3Result where
  | warnNoMembers
  | warnNoCatalog
  | ran (out : EngineOutcome)
deriving DecidableEq

/-- The guarded pipeline of tab 3 (app.py lines 259-465): warn and stop
on an empty household, warn and stop on a missing cost table, otherwise
resolve requirements, join the catalog, build the model, call the
external solver once and post-process its outcome.  The solver is a
black box mapping the built model to a status string and variable
values. -/
def generateList (members : List Member) (hasCost : Bool) (table : List ReqRow)
    (cost : List CostRow) (nut : List NutRow) (stock : List StockRow)
    (solver : Model → String × (String → Option ℚ)) : Tab3Result :=
  if members.isEmpty then .warnNoMembers
  else if hasCost = false then .warnNoCatalog
  else
    let req := requiredNutrients table members
    let data := joinTables cost nut stock
    let sv := solver (buildModel data req)
    .ran (afterSolve data sv.1 sv.2)

/-! ## Concrete sample data used by witnesses and counterexamples -/

/-- A sample aggregate requirement. -/
def reqSample : Req := ⟨2000, 50, 130, 35⟩

/-- A sample joined row in the Grains category. -/
def sampleRow : Row :=
  { food := "Rice", desc := "Rice 5lb", store := "Costco",
    basket := "Grains & Carbohydrate Sources", price := 5, lb := 5,
    kcal := 700, protein := 14, carbs := 150, fat := 2, stock := 0, maxQty := 10 }

/-- A sample joined row in the Protein category. -/
def protRow : Row :=
  { food := "Chicken", desc := "Chicken 3lb", store := "Costco",
    basket := "Protein", price := 9, lb := 3, kcal := 1500, protein := 280,
    carbs := 0, fat := 40, stock := 0, maxQty := 6 }

/-- A joined row whose food-basket label is outside the hardcoded
`basket_categories` list. -/
def dairyRow : Row :=
  { food := "Milk", desc := "Milk 1gal", store := "Kroger", basket := "Dairy",
    price := 3, lb := 8, kcal := 2400, protein := 128, carbs := 187, fat := 128,
    stock := 0, maxQty := 5 }

/-- A cost table with a duplicated package description. -/
def dupCost : List CostRow :=
  [{ food := "Rice", desc := "Rice 5lb bag", store := "Costco", price := 7, lb := 5 },
   { food := "Rice", desc := "Rice 5lb bag", store := "Kroger", price := 6, lb := 5 }]

/-- The nutrition table for the duplicated-description scenario. -/
def dupNut : List NutRow :=
  [{ food := "Rice", kcal := 8000, protein := 160, carbs := 1700, fat := 10,
     basket := "Grains & Carbohydrate Sources", maxQty := 4 }]

/-- An empty stock table. -/
def dupStock : List StockRow := []

/-- A sample requirement table with one row. -/
def tableSample : List ReqRow :=
  [{ group := "Male", minAge := 19, maxAge := 30, minCal := 2400,
     minProtein := 56, minCarb := 130, minFat := 70 }]

/-- A sample household member. -/
def memberSample : Member := ⟨25, .male⟩

/-! ## Helper lemmas -/

theorem dotF_nil (f : String → ℚ) : dotF [] f = 0 := rfl

theorem requiredNutrients_eq (table : List ReqRow) (members : List Member) :
    requiredNutrients table members
      = (members.map (memberReq table)).foldl Req.addR zeroReq := by
  simp [requiredNutrients, List.foldl_map]

theorem mem_firstKeys_aux (l : List Row) : ∀ (acc : List String) (d : String),
    (d ∈ l.foldl (fun acc r => if r.desc ∈ acc then acc else acc ++ [r.desc]) acc) ↔
      d ∈ acc ∨ ∃ r ∈ l, r.desc = d := by
  induction l with
  | nil => intro acc d; simp
  | cons r l ih =>
    intro acc d
    rw [List.foldl_cons, ih]
    by_cases h : r.desc ∈ acc
    · simp only [if_pos h]
      constructor
      · rintro (h1 | ⟨x, hx, hxd⟩)
        · exact Or.inl h1
        · exact Or.inr ⟨x, List.mem_cons_of_mem _ hx, hxd⟩
      · rintro (h1 | ⟨x, hx, hxd⟩)
        · exact Or.inl h1
        · rcases List.mem_cons.mp hx with rfl | hx'
          · exact Or.inl (hxd ▸ h)
          · exact Or.inr ⟨x, hx', hxd⟩
    · simp only [if_neg h]
      constructor
      · rintro (h1 | ⟨x, hx, hxd⟩)
        · rcases List.mem_append.mp h1 with ha | hb
          · exact Or.inl ha
          · exact Or.inr ⟨r, List.mem_cons_self _ _, (List.mem_singleton.mp hb).symm⟩
        · exact Or.inr ⟨x, List.mem_cons_of_mem _ hx, hxd⟩
      · rintro (h1 | ⟨x, hx, hxd⟩)
        · exact Or.inl (List.mem_append.mpr (Or.inl h1))
        · rcases List.mem_cons.mp hx with rfl | hx'
          · exact Or.inl (List.mem_append.mpr (Or.inr (by simp [hxd])))
          · exact Or.inr ⟨x, hx', hxd⟩

theorem mem_firstKeys (data : List Row) (d : String) :
    d ∈ firstKeys data ↔ ∃ r ∈ data, r.desc = d := by
  simpa [firstKeys] using mem_firstKeys_aux data [] d

theorem upsert_key_mono (acc : List (String × Nat)) (d : String) (m : Nat)
    (x : String) : (∃ q, (x, q) ∈ acc) → ∃ q, (x, q) ∈ upsert acc d m := by
  rintro ⟨q, hq⟩
  unfold upsert
  split
  · by_cases hxd : x = d
    · exact ⟨m, List.mem_map.mpr ⟨(x, q), hq, by simp [hxd]⟩⟩
    · exact ⟨q, List.mem_map.mpr ⟨(x, q), hq, by simp [hxd]⟩⟩
  · exact ⟨q, List.mem_append.mpr (Or.inl hq)⟩

theorem upsert_key_self (acc : List (String × Nat)) (d : String) (m : Nat) :
    ∃ q, (d, q) ∈ upsert acc d m := by
  unfold upsert
  split
  · next h =>
    obtain ⟨p, hp, hpd⟩ := List.any_eq_true.mp h
    exact ⟨m, List.mem_map.mpr ⟨p, hp, by simp [hpd]⟩⟩
  · exact ⟨m, List.mem_append.mpr (Or.inr (by simp))⟩

theorem buyBounds_key_aux (l : List Row) : ∀ (acc : List (String × Nat)) (x : String),
    ((∃ q, (x, q) ∈ acc) ∨ ∃ r ∈ l, r.desc = x) →
    ∃ q, (x, q) ∈ l.foldl (fun acc r => upsert acc r.desc r.maxQty) acc := by
  induction l with
  | nil =>
    intro acc x h
    rcases h with h | ⟨r, hr, _⟩
    · simpa using h
    · exact absurd hr (List.not_mem_nil _)
  | cons r l ih =>
    intro acc x h
    rw [List.foldl_cons]
    apply ih
    rcases h with h | ⟨s, hs, hsd⟩
    · exact Or.inl (upsert_key_mono _ _ _ _ h)
    · rcases List.mem_cons.mp hs with rfl | hs'
      · subst hsd
        exact Or.inl (upsert_key_self acc s.desc s.maxQty)
      · exact Or.inr ⟨s, hs', hsd⟩

theorem mem_buyBounds_of_mem (data : List Row) (r : Row) (hr : r ∈ data) :
    ∃ q, (r.desc, q) ∈ buyBounds data := by
  simpa [buyBounds] using buyBounds_key_aux data [] r.desc (Or.inr ⟨r, hr, rfl⟩)

theorem mem_diversityFor (data : List Row) (cat : String) (c : Constr) :
    c ∈ diversityFor data cat ↔
      0 < (data.filter fun r => r.basket == cat).length ∧
        (c = presenceConstr data cat ∨ c = ubConstr cat) := by
  unfold diversityFor
  split
  · next h => simp [h]
  · next h => simp [h]

theorem mem_foldr_diversity (data : List Row) (l : List String) (c : Constr) :
    c ∈ l.foldr (fun cat acc => diversityFor data cat ++ acc) [] ↔
      ∃ cat ∈ l, c ∈ diversityFor data cat := by
  induction l with
  | nil => simp
  | cons a l ih =>
    rw [List.foldr_cons, List.mem_append, ih]
    constructor
    · rintro (h | ⟨cat, hc, h⟩)
      · exact ⟨a, List.mem_cons_self _ _, h⟩
      · exact ⟨cat, List.mem_cons_of_mem _ hc, h⟩
    · rintro ⟨cat, hc, h⟩
      rcases List.mem_cons.mp hc with rfl | hc'
      · exact Or.inl h
      · exact Or.inr ⟨cat, hc', h⟩

theorem mem_diversityConstrs (data : List Row) (c : Constr) :
    c ∈ diversityConstrs data ↔
      ∃ cat ∈ basketCategories,
        0 < (data.filter fun r => r.basket == cat).length ∧
          (c = presenceConstr data cat ∨ c = ubConstr cat) := by
  rw [diversityConstrs, mem_foldr_diversity]
  constructor
  · rintro ⟨cat, hc, h⟩
    exact ⟨cat, hc, (mem_diversityFor data cat c).mp h⟩
  · rintro ⟨cat, hc, h⟩
    exact ⟨cat, hc, (mem_diversityFor data cat c).mpr h⟩

theorem mem_nutrientConstrs (data : List Row) (req : Req) (c : Constr) :
    c ∈ nutrientConstrs data req ↔ ∃ n, c = nutrientConstr data req n := by
  constructor
  · intro h
    obtain ⟨n, _, rfl⟩ := List.mem_map.mp h
    exact ⟨n, rfl⟩
  · rintro ⟨n, rfl⟩
    refine List.mem_map.mpr ⟨n, ?_, rfl⟩
    cases n <;> simp [nutrientOrder]

theorem nutrientConstr_holds (data : List Row) (req : Req) (n : Nutrient)
    (buy ind : String → ℚ) :
    (nutrientConstr data req n).holds buy ind ↔
      reqVal req n * 7 ≤ (data.map fun r => nutrCol n r * buy r.desc).sum
        + stockDot data n := by
  simp only [Constr.holds, nutrientConstr, dotF, List.map_map, Function.comp_def,
    List.map_nil, List.sum_nil]
  constructor <;> intro h <;> linarith

theorem presenceConstr_holds (data : List Row) (cat : String)
    (buy ind : String → ℚ) :
    (presenceConstr data cat).holds buy ind ↔
      ind cat ≤ ((data.filter fun r => r.basket == cat).map fun r => buy r.desc).sum
        + (((data.filter fun r => r.basket == cat).filter
              fun r => decide (0 < r.stock)).length : ℚ) := by
  simp only [Constr.holds, presenceConstr, dotF, List.map_map, Function.comp_def,
    List.map_cons, List.map_nil, List.sum_cons, List.sum_nil, one_mul, neg_mul,
    neg_one_mul]
  constructor <;> intro h <;> linarith

theorem ubConstr_holds (cat : String) (buy ind : String → ℚ) :
    (ubConstr cat).holds buy ind ↔ ind cat ≤ 1 := by
  simp only [Constr.holds, ubConstr, dotF, List.map_cons, List.map_nil,
    List.sum_cons, List.sum_nil, one_mul]
  constructor <;> intro h <;> linarith

theorem pyRound_intCast (k : ℤ) : pyRound (k : ℚ) = k := by
  unfold pyRound
  rw [Int.floor_intCast]
  norm_num

theorem pyRound_nearest (q : ℚ) : |q - (pyRound q : ℚ)| ≤ 1 / 2 := by
  have h1 : (⌊q⌋ : ℚ) ≤ q := Int.floor_le q
  have h2 : q < ⌊q⌋ + 1 := Int.lt_floor_add_one q
  unfold pyRound
  split_ifs with ha hb hc
  · rw [abs_le]
    constructor <;> linarith
  · rw [abs_le]
    push_cast
    constructor <;> linarith
  · have hmid : q - ⌊q⌋ = 1 / 2 := by linarith
    rw [abs_le]
    constructor <;> linarith
  · have hmid : q - ⌊q⌋ = 1 / 2 := by linarith
    rw [abs_le]
    push_cast
    constructor <;> linarith

theorem mentionsCat_nutrient (data : List Row) (req : Req) (n : Nutrient)
    (cat : String) : mentionsCat (nutrientConstr data req n) cat = false := by
  simp [mentionsCat, nutrientConstr, coefOf]

theorem mentionsCat_presence_self (data : List Row) (cat : String) :
    mentionsCat (presenceConstr data cat) cat = true := by
  simp [mentionsCat, presenceConstr, coefOf]

theorem mentionsCat_presence_ne (data : List Row) (c' cat : String) (h : c' ≠ cat) :
    mentionsCat (presenceConstr data c') cat = false := by
  simp [mentionsCat, presenceConstr, coefOf, h]

theorem mentionsCat_ub_self (cat : String) :
    mentionsCat (ubConstr cat) cat = true := by
  simp [mentionsCat, ubConstr, coefOf]

theorem mentionsCat_ub_ne (c' cat : String) (h : c' ≠ cat) :
    mentionsCat (ubConstr c') cat = false := by
  simp [mentionsCat, ubConstr, coefOf, h]

theorem filter_diversityFor_ne (data : List Row) (c' cat : String) (h : c' ≠ cat) :
    (diversityFor data c').filter (fun c => mentionsCat c cat) = [] := by
  unfold diversityFor
  split
  · simp [mentionsCat_presence_ne data c' cat h, mentionsCat_ub_ne c' cat h]
  · rfl

theorem filter_diversityFor_self (data : List Row) (cat : String)
    (h : 0 < (data.filter fun r => r.basket == cat).length) :
    (diversityFor data cat).filter (fun c => mentionsCat c cat)
      = [presenceConstr data cat, ubConstr cat] := by
  unfold diversityFor
  rw [if_pos h]
  simp [mentionsCat_presence_self, mentionsCat_ub_self]

theorem filter_diversityFor_empty (data : List Row) (cat : String)
    (h : (data.filter fun r => r.basket == cat).length = 0) :
    (diversityFor data cat).filter (fun c => mentionsCat c cat) = [] := by
  unfold diversityFor
  rw [if_neg (by omega)]
  rfl

theorem filter_constraints_mentions (data : List Row) (req : Req) (cat : String) :
    (buildModel data req).constraints.filter (fun c => mentionsCat c cat)
      = (diversityConstrs data).filter (fun c => mentionsCat c cat) := by
  show (nutrientConstrs data req ++ diversityConstrs data).filter _ = _
  rw [List.filter_append, List.filter_eq_nil_iff.mpr, List.nil_append]
  intro c hc
  obtain ⟨n, rfl⟩ := (mem_nutrientConstrs data req c).mp hc
  simp [mentionsCat_nutrient]

theorem filter_diversity_not_mem (data : List Row) (cat : String) :
    ∀ l : List String, cat ∉ l →
      (l.foldr (fun c acc => diversityFor data c ++ acc) []).filter
          (fun c => mentionsCat c cat) = [] := by
  intro l
  induction l with
  | nil => intro _; rfl
  | cons a l ih =>
    intro h
    rw [List.foldr_cons, List.filter_append,
      filter_diversityFor_ne data a cat (fun ha => h (ha ▸ List.mem_cons_self a l)),
      List.nil_append]
    exact ih fun hl => h (List.mem_cons_of_mem a hl)

theorem filter_diversity_mem (data : List Row) (cat : String) :
    ∀ l : List String, cat ∈ l → l.Nodup →
      (l.foldr (fun c acc => diversityFor data c ++ acc) []).filter
          (fun c => mentionsCat c cat)
        = (diversityFor data cat).filter (fun c => mentionsCat c cat) := by
  intro l
  induction l with
  | nil => intro h; exact absurd h (List.not_mem_nil cat)
  | cons a l ih =>
    intro h hnd
    rw [List.foldr_cons, List.filter_append]
    rcases List.mem_cons.mp h with rfl | hl
    · rw [filter_diversity_not_mem data cat l (List.nodup_cons.mp hnd).1,
        List.append_nil]
    · have hne : a ≠ cat := fun ha => (List.nodup_cons.mp hnd).1 (ha ▸ hl)
      rw [filter_diversityFor_ne data a cat hne, List.nil_append,
        ih hl (List.nodup_cons.mp hnd).2]

theorem nutrientConstr_ind_irrel (data : List Row) (req : Req) (n : Nutrient)
    (buy ind ind' : String → ℚ) :
    (nutrientConstr data req n).holds buy ind ↔
      (nutrientConstr data req n).holds buy ind' := by
  rw [nutrientConstr_holds, nutrientConstr_holds]

theorem bounds_nonneg (data : List Row) (req : Req) (buy : String → ℚ)
    (h : buyBoundsOK (buildModel data req) buy) :
    ∀ r ∈ data, 0 ≤ buy r.desc := by
  intro r hr
  obtain ⟨q, hq⟩ := mem_buyBounds_of_mem data r hr
  exact (h (r.desc, q) hq).2.1

theorem div_holds_zero (data : List Row) (buy : String → ℚ)
    (hb : ∀ r ∈ data, 0 ≤ buy r.desc) :
    ∀ c ∈ diversityConstrs data, c.holds buy fun _ => 0 := by
  intro c hc
  obtain ⟨cat, _, _, hc2⟩ := (mem_diversityConstrs data c).mp hc
  rcases hc2 with rfl | rfl
  · rw [presenceConstr_holds]
    have h1 : 0 ≤ ((data.filter fun r => r.basket == cat).map fun r => buy r.desc).sum := by
      apply List.sum_nonneg
      intro x hx
      obtain ⟨r, hr, rfl⟩ := List.mem_map.mp hx
      exact hb r (List.mem_of_mem_filter hr)
    have h2 : (0:ℚ) ≤ (((data.filter fun r => r.basket == cat).filter
        fun r => decide (0 < r.stock)).length : ℚ) := by positivity
    exact add_nonneg h1 h2
  · rw [ubConstr_holds]
    exact zero_le_one

theorem feasible_iff_noDiv (data : List Row) (req : Req) (buy : String → ℚ) :
    (∃ ind, feasible (buildModel data req) buy ind) ↔
      feasible (buildModelNoDiv data req) buy fun _ => 0 := by
  constructor
  · rintro ⟨ind, hb, _, hcon⟩
    refine ⟨hb, ?_, ?_⟩
    · intro c hc
      exact absurd hc (List.not_mem_nil c)
    · intro c hc
      obtain ⟨n, rfl⟩ := (mem_nutrientConstrs data req c).mp hc
      exact (nutrientConstr_ind_irrel data req n buy ind fun _ => 0).mp
        (hcon _ (List.mem_append_left _ hc))
  · rintro ⟨hb, _, hcon⟩
    refine ⟨fun _ => 0, hb, fun c _ => Or.inl rfl, ?_⟩
    intro c hc
    rcases List.mem_append.mp hc with h1 | h1
    · exact hcon _ h1
    · exact div_holds_zero data buy (bounds_nonneg data req buy hb) c h1

theorem mem_extractRows (data : List Row) (vals : String → Option ℚ)
    (pr : PlanRow) :
    pr ∈ extractRows data vals ↔
      ∃ d q r, d ∈ firstKeys data ∧ vals d = some q ∧ 0 < q ∧
        (data.find? fun x => x.desc == d) = some r ∧ pr = mkPlanRow r d q := by
  simp only [extractRows, List.mem_filterMap]
  constructor
  · rintro ⟨d, hd, hf⟩
    unfold extractOne at hf
    cases hv : vals d with
    | none => rw [hv] at hf; simp at hf
    | some q =>
      rw [hv] at hf
      simp only [Option.some_bind] at hf
      by_cases hq : 0 < q
      · rw [if_pos hq] at hf
        cases hr : data.find? fun x => x.desc == d with
        | none => rw [hr] at hf; simp at hf
        | some r =>
          rw [hr] at hf
          simp only [Option.map_some', Option.some_inj] at hf
          exact ⟨d, q, r, hd, hv, hq, hr, hf.symm⟩
      · rw [if_neg hq] at hf; cases hf
  · rintro ⟨d, q, r, hd, hv, hq, hr, rfl⟩
    refine ⟨d, hd, ?_⟩
    unfold extractOne
    rw [hv]
    simp [hq, hr]

/-! ## Claim theorems -/

/-- Claim C9: for every household with zero members the Generate Shopping
List tab short-circuits at the warning before any model is constructed:
the result is `warnNoMembers` for every catalog, requirement table, stock
table and every solver whatsoever, so no model is built and no solve
happens. -/
theorem empty_household_short_circuit (hasCost : Bool) (table : List ReqRow)
    (cost : List CostRow) (nut : List NutRow) (stock : List StockRow)
    (solver : Model → String × (String → Option ℚ)) :
    generateList [] hasCost table cost nut stock solver = .warnNoMembers := rfl

/-- Claim C7: for every solver status other than `"Optimal"` the
post-solve stage yields the empty plan with the status string attached
verbatim; the outcome is independent of the solved variable values (no
best-effort partial extraction), and the pipeline applies the solver
exactly once with no relaxation (`generateList` calls it a single time). -/
theorem non_optimal_empty_plan (data : List Row) (status : String)
    (vals vals' : String → Option ℚ) (h : status ≠ "Optimal") :
    afterSolve data status vals = .nonOptimal status ∧
      (afterSolve data status vals).plan = [] ∧
      afterSolve data status vals = afterSolve data status vals' := by
  unfold afterSolve
  rw [if_neg h, if_neg h]
  exact ⟨rfl, rfl, rfl⟩

/-- Witness for C7 at a concrete infeasible outcome. -/
theorem non_optimal_empty_plan_witness :
    afterSolve [sampleRow] "Infeasible" (fun _ => some 3)
        = .nonOptimal "Infeasible" ∧
      (afterSolve [sampleRow] "Infeasible" fun _ => some 3).plan = [] ∧
      afterSolve [sampleRow] "Infeasible" (fun _ => some 3)
        = afterSolve [sampleRow] "Infeasible" fun _ => none :=
  non_optimal_empty_plan [sampleRow] "Infeasible" (fun _ => some 3)
    (fun _ => none) (by decide)

/-- Claim C10: when the solver reports Optimal but every purchase
variable's value is absent or zero, the results list is empty and
aggregating the empty results DataFrame raises a `KeyError` (the empty
`pd.DataFrame` has no `Weekly_Cost` column), so the request ends in the
failure branch rather than in a valid empty plan. -/
theorem optimal_all_zero_fails (data : List Row) (vals : String → Option ℚ)
    (h : ∀ r ∈ data, vals r.desc = none ∨ vals r.desc = some 0) :
    afterSolve data "Optimal" vals = .failure "KeyError: Weekly_Cost" := by
  have hrows : extractRows data vals = [] := by
    rw [extractRows, List.filterMap_eq_nil_iff]
    intro d hd
    obtain ⟨r, hr, rfl⟩ := (mem_firstKeys data d).mp hd
    unfold extractOne
    rcases h r hr with hv | hv <;> rw [hv]
    · rfl
    · simp
  unfold afterSolve
  rw [if_pos rfl, hrows]
  rfl

/-- Witness for C10: one package solved to exactly zero. -/
theorem optimal_all_zero_fails_witness :
    afterSolve [sampleRow] "Optimal" (fun _ => some 0)
      = .failure "KeyError: Weekly_Cost" :=
  optimal_all_zero_fails [sampleRow] (fun _ => some 0) fun _ _ => Or.inr rfl

/-- Claim C8: from an Optimal solve whose values respect the declared
variable bounds (each solved value an integer between 0 and that
package's `Max_quantity`), every plan row's quantity is a nonnegative
integer (`qty : ℤ` with `0 ≤ qty`) that does not exceed the
`Max_quantity` of its package's joined row. -/
theorem plan_quantity_bounds (data : List Row) (vals : String → Option ℚ)
    (h : ∀ r ∈ data, ∀ q : ℚ, vals r.desc = some q →
      (∃ k : ℤ, q = (k : ℚ)) ∧ 0 ≤ q ∧ q ≤ (r.maxQty : ℚ)) :
    ∀ pr ∈ extractRows data vals, 0 ≤ pr.qty ∧
      ∃ r, (data.find? fun x => x.desc == pr.desc) = some r ∧ r ∈ data ∧
        pr.qty ≤ (r.maxQty : ℤ) := by
  intro pr hpr
  obtain ⟨d, q, r, hd, hv, hq, hr, rfl⟩ := (mem_extractRows data vals pr).mp hpr
  have hrd : r.desc = d := by simpa using List.find?_some hr
  have hrmem : r ∈ data := List.mem_of_find?_eq_some hr
  obtain ⟨⟨k, hk⟩, hq0, hqm⟩ := h r hrmem q (by rw [hrd]; exact hv)
  subst hk
  constructor
  · show (0 : ℤ) ≤ (mkPlanRow r d (k : ℚ)).qty
    have : (mkPlanRow r d (k : ℚ)).qty = k := by
      simp [mkPlanRow, pyRound_intCast]
    rw [this]
    exact_mod_cast hq0
  · refine ⟨r, ?_, hrmem, ?_⟩
    · simpa [mkPlanRow] using hr
    · have : (mkPlanRow r d (k : ℚ)).qty = k := by
        simp [mkPlanRow, pyRound_intCast]
      rw [this]
      exact_mod_cast hqm

/-- Witness for C8: a single package solved to 3 with bound 10. -/
theorem plan_quantity_bounds_witness :
    0 ≤ (mkPlanRow sampleRow "Rice 5lb" 3).qty ∧
      ∃ r, ([sampleRow].find? fun x =>
          x.desc == (mkPlanRow sampleRow "Rice 5lb" 3).desc) = some r ∧
        r ∈ [sampleRow] ∧ (mkPlanRow sampleRow "Rice 5lb" 3).qty ≤ (r.maxQty : ℤ) := by
  refine plan_quantity_bounds [sampleRow] (fun _ => some 3) ?_ _ ?_
  · intro r hr q hq
    obtain rfl : (3 : ℚ) = q := Option.some_inj.mp hq
    rcases List.mem_singleton.mp hr with rfl
    exact ⟨⟨3, by norm_num⟩, by norm_num, by norm_num [sampleRow]⟩
  · apply (mem_extractRows _ _ _).mpr
    refine ⟨"Rice 5lb", 3, sampleRow, ?_, rfl, by norm_num, rfl, rfl⟩
    exact (mem_firstKeys _ _).mpr ⟨sampleRow, List.mem_singleton.mpr rfl, rfl⟩

/-- Claim C6: for every household member, the Requirement Resolver selects
the first requirement row whose `Age_Sex_Group` equals the member's gender
case-insensitively (the row's group lowercased equals the member's
lowercase gender string) and whose inclusive `[Min_Age, Max_Age]` range
contains the member's age, and adds exactly that row's four daily
minimums; a member matching no row contributes the zero record, and the
aggregation is the total fold of the per-member contributions, so the run
always proceeds. -/
theorem requirement_resolver_matching (table : List ReqRow) (m : Member)
    (members : List Member) :
    (∀ r, table.find? (rowMatches m) = some r →
      strLower r.group = genderStr m.gender ∧ r.minAge ≤ m.age ∧
        m.age ≤ r.maxAge ∧
        memberReq table m = ⟨r.minCal, r.minProtein, r.minCarb, r.minFat⟩) ∧
    ((∀ r ∈ table, rowMatches m r = false) → memberReq table m = zeroReq) ∧
    requiredNutrients table members
      = (members.map (memberReq table)).foldl Req.addR zeroReq := by
  refine ⟨?_, ?_, requiredNutrients_eq table members⟩
  · intro r hr
    have hmatch := List.find?_some hr
    rw [rowMatches] at hmatch
    simp only [Bool.and_eq_true, beq_iff_eq, decide_eq_true_eq] at hmatch
    obtain ⟨⟨h1, h2⟩, h3⟩ := hmatch
    refine ⟨h1, h2, h3, ?_⟩
    rw [memberReq, hr]
  · intro hnone
    rw [memberReq, List.find?_eq_none.mpr ?_]
    intro r hr
    rw [hnone r hr]
    simp

/-- Witness for C6: a 25-year-old male matches the `"Male"` 19-30 row. -/
theorem requirement_resolver_matching_witness :
    strLower (tableSample.head (by decide)).group = genderStr memberSample.gender ∧
      (tableSample.head (by decide)).minAge ≤ memberSample.age ∧
      memberSample.age ≤ (tableSample.head (by decide)).maxAge ∧
      memberReq tableSample memberSample
        = ⟨(tableSample.head (by decide)).minCal,
           (tableSample.head (by decide)).minProtein,
           (tableSample.head (by decide)).minCarb,
           (tableSample.head (by decide)).minFat⟩ :=
  (requirement_resolver_matching tableSample memberSample []).1
    (tableSample.head (by decide)) (by decide)

/-- Claim C5 counterexample: there is no positive tolerance below which
solved values are excluded.  For any ε > 0 the value ε/2 (numerically
near zero, e.g. 5·10⁻⁷ for ε = 10⁻⁶) is strictly positive, so the code
includes the package even though ε/2 is not greater than ε: the inclusion
test of app.py line 366 is `> 0`, not `> ε` for any positive ε. -/
theorem result_filter_no_tolerance :
    ¬ ∃ ε : ℚ, 0 < ε ∧ ∀ (vals : String → Option ℚ) (r : Row) (data : List Row),
      r ∈ data →
        ((∃ pr ∈ extractRows data vals, pr.desc = r.desc) ↔
          ∃ q, vals r.desc = some q ∧ ε < q) := by
  rintro ⟨ε, hε, h⟩
  have h2 : (0 : ℚ) < ε / 2 := by positivity
  have hmem : sampleRow ∈ [sampleRow] := List.mem_singleton.mpr rfl
  have hcode : ∃ pr ∈ extractRows [sampleRow] fun _ => some (ε / 2),
      pr.desc = sampleRow.desc := by
    refine ⟨mkPlanRow sampleRow sampleRow.desc (ε / 2), ?_, rfl⟩
    apply (mem_extractRows _ _ _).mpr
    refine ⟨sampleRow.desc, ε / 2, sampleRow, ?_, rfl, h2, ?_, rfl⟩
    · exact (mem_firstKeys _ _).mpr ⟨sampleRow, hmem, rfl⟩
    · simp [List.find?]
  obtain ⟨q, hq, hlt⟩ :=
    (h (fun _ => some (ε / 2)) sampleRow [sampleRow] hmem).mp hcode
  obtain rfl : ε / 2 = q := Option.some_inj.mp hq
  linarith

/-- Claim C5 (amended): the Result Extractor includes a package exactly
when its solved value is present and strictly greater than zero (so a
positive near-zero value is included, with quantity rounding to 0);
the quantity is Python's `round` of the value (half to even, a nearest
integer), and the row's cost and weight are price × rounded quantity and
unit weight × rounded quantity, each rounded half-to-even to two decimal
places (`round(…, 2)`), with the unit price, unit weight, store and food
taken from the first joined row with that description. -/
theorem result_extractor_amended (data : List Row) (vals : String → Option ℚ) :
    (∀ r ∈ data,
      (∃ pr ∈ extractRows data vals, pr.desc = r.desc) ↔
        ∃ q, vals r.desc = some q ∧ 0 < q) ∧
    (∀ pr ∈ extractRows data vals, ∃ q r,
      vals pr.desc = some q ∧ 0 < q ∧
        (data.find? fun x => x.desc == pr.desc) = some r ∧
        pr.qty = pyRound q ∧ |q - (pr.qty : ℚ)| ≤ 1 / 2 ∧
        pr.weeklyCost = round2 (r.price * (pyRound q : ℚ)) ∧
        pr.totalWeight = round2 (r.lb * (pyRound q : ℚ)) ∧
        pr.pricePerPkg = r.price ∧ pr.lbPerPkg = r.lb ∧
        pr.store = r.store ∧ pr.food = r.food) := by
  constructor
  · intro r hr
    constructor
    · rintro ⟨pr, hpr, hdesc⟩
      obtain ⟨d, q, r', _, hv, hq, _, rfl⟩ := (mem_extractRows data vals pr).mp hpr
      have hd' : d = r.desc := hdesc
      exact ⟨q, by rw [← hd']; exact hv, hq⟩
    · rintro ⟨q, hv, hq⟩
      have hsome : (data.find? fun x => x.desc == r.desc).isSome := by
        rw [List.find?_isSome]
        exact ⟨r, hr, by simp⟩
      obtain ⟨r', hr'⟩ := Option.isSome_iff_exists.mp hsome
      refine ⟨mkPlanRow r' r.desc q, ?_, rfl⟩
      apply (mem_extractRows _ _ _).mpr
      exact ⟨r.desc, q, r', (mem_firstKeys _ _).mpr ⟨r, hr, rfl⟩, hv, hq, hr', rfl⟩
  · intro pr hpr
    obtain ⟨d, q, r, _, hv, hq, hr, rfl⟩ := (mem_extractRows data vals pr).mp hpr
    exact ⟨q, r, hv, hq, hr, rfl, pyRound_nearest q, rfl, rfl, rfl, rfl, rfl, rfl⟩

/-- Witness for the amended C5: one package solved to 3; its plan row
carries the rounded quantity and the two-decimal cost and weight. -/
theorem result_extractor_amended_witness :
    (mkPlanRow sampleRow "Rice 5lb" 3).qty = pyRound 3 ∧
      (mkPlanRow sampleRow "Rice 5lb" 3).weeklyCost
        = round2 (sampleRow.price * (pyRound 3 : ℚ)) ∧
      (mkPlanRow sampleRow "Rice 5lb" 3).totalWeight
        = round2 (sampleRow.lb * (pyRound 3 : ℚ)) := by
  have hpr : mkPlanRow sampleRow "Rice 5lb" 3
      ∈ extractRows [sampleRow] fun _ => some 3 := by
    apply (mem_extractRows _ _ _).mpr
    refine ⟨"Rice 5lb", 3, sampleRow, ?_, rfl, by norm_num, rfl, rfl⟩
    exact (mem_firstKeys _ _).mpr ⟨sampleRow, List.mem_singleton.mpr rfl, rfl⟩
  obtain ⟨q, r, hv, _, hr, hqty, _, hcost, hweight, _⟩ :=
    (result_extractor_amended [sampleRow] fun _ => some 3).2
      (mkPlanRow sampleRow "Rice 5lb" 3) hpr
  obtain rfl : (3 : ℚ) = q := Option.some_inj.mp hv
  obtain rfl : sampleRow = r := Option.some_inj.mp hr
  exact ⟨hqty, hcost, hweight⟩

/-- Claim C2 evaluation: a cost table whose package description is
duplicated raises no error anywhere on the join-and-build path.  The
joined data carries the description twice, the `buy_qty` dict silently
collapses the duplicates into a single variable whose bound comes from
the last duplicate row, and a complete model is still built (four
nutrient constraints plus the two Grains-category diversity
constraints); nothing reports the duplicated key. -/
theorem duplicate_description_builds_model :
    (joinTables dupCost dupNut dupStock).map Row.desc
        = ["Rice 5lb bag", "Rice 5lb bag"] ∧
      buyBounds (joinTables dupCost dupNut dupStock) = [("Rice 5lb bag", 4)] ∧
      firstKeys (joinTables dupCost dupNut dupStock) = ["Rice 5lb bag"] ∧
      (buildModel (joinTables dupCost dupNut dupStock) reqSample).constraints.length
        = 6 :=
  ⟨rfl, rfl, rfl, rfl⟩

/-- Claim C1: for every nutrient n the built model contains exactly one
constraint for n (PuLP keys constraints by their name
`f"{nutrient}_requirement"`), and that constraint holds at an assignment
exactly when (sum over all joined packages of nutrient_n × purchase) plus
the constant (sum over all joined packages of nutrient_n × stock_lb) is
at least the aggregate daily requirement for n times 7; the stock term
does not involve the purchase variables. -/
theorem nutrient_constraint_unique_form (data : List Row) (req : Req)
    (n : Nutrient) :
    ((buildModel data req).constraints.countP
        (fun c => c.name == reqKey n ++ "_requirement") = 1) ∧
      (∀ c ∈ (buildModel data req).constraints,
        c.name = reqKey n ++ "_requirement" →
        ∀ buy ind : String → ℚ,
          c.holds buy ind ↔
            reqVal req n * 7 ≤ (data.map fun r => nutrCol n r * buy r.desc).sum
              + (data.map fun r => nutrCol n r * r.stock).sum) := by
  constructor
  · show (nutrientConstrs data req ++ diversityConstrs data).countP _ = 1
    rw [List.countP_append]
    have h1 : (nutrientConstrs data req).countP
        (fun c => c.name == reqKey n ++ "_requirement") = 1 := by
      cases n <;>
        simp [nutrientConstrs, nutrientOrder, nutrientConstr, reqKey,
          List.countP_cons, List.countP_nil]
    have h2 : (diversityConstrs data).countP
        (fun c => c.name == reqKey n ++ "_requirement") = 0 := by
      rw [List.countP_eq_zero]
      intro c hc
      obtain ⟨cat, hcat, _, hc2⟩ := (mem_diversityConstrs data c).mp hc
      simp only [basketCategories] at hcat
      rcases hc2 with rfl | rfl
      · simp only [presenceConstr]
        fin_cases hcat <;> cases n <;> decide
      · simp only [ubConstr]
        cases n <;> decide
    omega
  · intro c hc hname buy ind
    rcases List.mem_append.mp hc with hmem | hmem
    · obtain ⟨n', rfl⟩ := (mem_nutrientConstrs data req c).mp hmem
      simp only [nutrientConstr] at hname
      have hnn : n' = n := by
        cases n <;> cases n' <;> first
          | rfl
          | exact absurd hname (by decide)
      subst hnn
      exact nutrientConstr_holds data req n' buy ind
    · exfalso
      obtain ⟨cat, hcat, _, hc2⟩ := (mem_diversityConstrs data c).mp hmem
      simp only [basketCategories] at hcat
      rcases hc2 with rfl | rfl
      · simp only [presenceConstr] at hname
        fin_cases hcat <;> cases n <;> exact absurd hname (by decide)
      · simp only [ubConstr] at hname
        cases n <;> exact absurd hname (by decide)

/-- Witness for C1 at one concrete catalog, the protein constraint. -/
theorem nutrient_constraint_unique_form_witness :
    ((buildModel [sampleRow] reqSample).constraints.countP
        (fun c => c.name == reqKey .protein ++ "_requirement") = 1) ∧
      ((nutrientConstr [sampleRow] reqSample .protein).holds
          (fun _ => 25) (fun _ => 0) ↔
        reqVal reqSample .protein * 7 ≤
          ([sampleRow].map fun r => nutrCol .protein r * 25).sum
            + ([sampleRow].map fun r => nutrCol .protein r * r.stock).sum) := by
  obtain ⟨h1, h2⟩ := nutrient_constraint_unique_form [sampleRow] reqSample .protein
  refine ⟨h1, h2 _ ?_ rfl _ _⟩
  exact List.mem_append_left _
    (List.mem_map.mpr ⟨.protein, by simp [nutrientOrder], rfl⟩)

/-- Claim C3 counterexample: the category `"Dairy"` has a package in the
joined catalog, yet the built model has no indicator variable for it and
no constraint involving it at all — the diversity loop covers only the
five hardcoded `basket_categories`, not every category of the catalog. -/
theorem diversity_skips_unlisted_category :
    dairyRow.basket = "Dairy" ∧
      "Dairy" ∉ (buildModel [dairyRow] reqSample).catVars ∧
      (buildModel [dairyRow] reqSample).constraints.countP
          (fun c => mentionsCat c "Dairy") = 0 :=
  ⟨rfl, by decide, by decide⟩

/-- Claim C3 (amended): for every category c among the five hardcoded
basket categories, the model has a binary indicator for c, and when c has
at least one package in the joined catalog exactly the two diversity
constraints involve c — the presence constraint (purchases in c plus the
count of packages in c with positive stock is at least the indicator)
and the indicator-at-most-one constraint; a hardcoded category with no
packages gets no constraints involving it, and a category outside the
hardcoded list gets neither an indicator nor any constraint regardless
of its packages. -/
theorem diversity_constraints_amended (data : List Row) (req : Req)
    (cat : String) :
    (cat ∈ basketCategories →
      cat ∈ (buildModel data req).catVars ∧
      (0 < (data.filter fun r => r.basket == cat).length →
        (buildModel data req).constraints.filter (fun c => mentionsCat c cat)
            = [presenceConstr data cat, ubConstr cat] ∧
        (∀ buy ind : String → ℚ,
          (presenceConstr data cat).holds buy ind ↔
            ind cat ≤
              ((data.filter fun r => r.basket == cat).map fun r => buy r.desc).sum
                + (((data.filter fun r => r.basket == cat).filter
                      fun r => decide (0 < r.stock)).length : ℚ)) ∧
        (∀ buy ind : String → ℚ, (ubConstr cat).holds buy ind ↔ ind cat ≤ 1)) ∧
      ((data.filter fun r => r.basket == cat).length = 0 →
        (buildModel data req).constraints.filter (fun c => mentionsCat c cat)
          = [])) ∧
    (cat ∉ basketCategories →
      cat ∉ (buildModel data req).catVars ∧
      (buildModel data req).constraints.filter (fun c => mentionsCat c cat)
        = []) := by
  constructor
  · intro hcat
    refine ⟨hcat, ?_, ?_⟩
    · intro hitems
      refine ⟨?_, fun buy ind => presenceConstr_holds data cat buy ind,
        fun buy ind => ubConstr_holds cat buy ind⟩
      rw [filter_constraints_mentions]
      have hstep := filter_diversity_mem data cat basketCategories hcat (by decide)
      rw [diversityConstrs, hstep]
      exact filter_diversityFor_self data cat hitems
    · intro hempty
      rw [filter_constraints_mentions]
      have hstep := filter_diversity_mem data cat basketCategories hcat (by decide)
      rw [diversityConstrs, hstep]
      exact filter_diversityFor_empty data cat hempty
  · intro hcat
    refine ⟨hcat, ?_⟩
    rw [filter_constraints_mentions, diversityConstrs]
    exact filter_diversity_not_mem data cat basketCategories hcat

/-- Witness for the amended C3: one Protein package yields exactly the
two Protein diversity constraints and the indicator variable. -/
theorem diversity_constraints_amended_witness :
    ("Protein" ∈ (buildModel [protRow] reqSample).catVars) ∧
      (buildModel [protRow] reqSample).constraints.filter
          (fun c => mentionsCat c "Protein")
        = [presenceConstr [protRow] "Protein", ubConstr "Protein"] := by
  obtain ⟨h1, h2, _⟩ :=
    (diversity_constraints_amended [protRow] reqSample "Protein").1 (by decide)
  exact ⟨h1, (h2 (by decide)).1⟩

/-- Claim C4: for every catalog, stock and requirement input and every
purchase assignment within its declared bounds, setting every category
indicator to 0 satisfies all diversity constraints; consequently a
purchase assignment extends to a feasible assignment of the full model
exactly when it is feasible for the model with the diversity constraints
removed, and the two models attain exactly the same objective values over
their feasible sets (hence the same optimal cost). -/
theorem diversity_constraints_redundant (data : List Row) (req : Req)
    (buy : String → ℚ) (h : buyBoundsOK (buildModel data req) buy) :
    (∀ c ∈ diversityConstrs data, c.holds buy fun _ => 0) ∧
      ((∃ ind, feasible (buildModel data req) buy ind) ↔
        feasible (buildModelNoDiv data req) buy fun _ => 0) ∧
      (∀ v : ℚ,
        (∃ b i, feasible (buildModel data req) b i ∧
            dotF (buildModel data req).objTerms b = v) ↔
        (∃ b, feasible (buildModelNoDiv data req) b (fun _ => 0) ∧
            dotF (buildModelNoDiv data req).objTerms b = v)) := by
  refine ⟨div_holds_zero data buy (bounds_nonneg data req buy h),
    feasible_iff_noDiv data req buy, ?_⟩
  intro v
  constructor
  · rintro ⟨b, i, hf, hv⟩
    exact ⟨b, (feasible_iff_noDiv data req b).mp ⟨i, hf⟩, hv⟩
  · rintro ⟨b, hf, hv⟩
    obtain ⟨i, hfull⟩ := (feasible_iff_noDiv data req b).mpr hf
    exact ⟨b, i, hfull, hv⟩

/-- Witness for C4: with one Protein package and the all-zero purchase
assignment, the Protein presence constraint holds at indicator 0. -/
theorem diversity_constraints_redundant_witness :
    (presenceConstr [protRow] "Protein").holds (fun _ => 0) fun _ => 0 :=
  (diversity_constraints_redundant [protRow] reqSample (fun _ => 0)
      fun p _ => ⟨⟨0, rfl⟩, le_refl 0, Nat.cast_nonneg p.2⟩).1
    (presenceConstr [protRow] "Protein")
    ((mem_diversityConstrs [protRow] _).mpr
      ⟨"Protein", by decide, by decide, Or.inl rfl⟩)

end Grocery
